import Mathlib

/-!
Verification of the cluster-session and bounded-fetch core of topiq-explorer.

The definitions below are a shallow embedding of
`electron/services/kafka.service.ts` (class `KafkaService`) and of the
orphan-group reaper in the Electron main process. Offsets, which the source
keeps as decimal strings and converts with `BigInt`, are modelled as `Int`;
JavaScript `Number(...)` conversion of a BigInt is modelled by
`jsNumberOfInt` (exact up to 2^53, round-to-nearest-even beyond). The
asynchronous fetch loop is modelled as a state machine driven by a list of
events (record arrival, idle timeout, overall timeout, run error), each
handler running atomically as in the single-threaded event loop.
-/

namespace TopiqExplorer

/-- Round a natural magnitude to the nearest double-representable integer,
ties to even. Exact at or below 2^53. -/
def roundDoubleNat (a : Nat) : Nat :=
  if a ≤ 2 ^ 53 then a
  else
    let e := Nat.log2 a - 52
    let q := a / 2 ^ e
    let r := a % 2 ^ e
    let half := 2 ^ (e - 1)
    if half < r ∨ (r = half ∧ q % 2 = 1) then (q + 1) * 2 ^ e else q * 2 ^ e

/-- Model of the JavaScript conversion `Number(b)` for a BigInt `b`:
integers of magnitude at most 2^53 are exact; larger magnitudes are rounded
to the nearest representable double (ties to even). Magnitudes beyond the
double range (around 2^1024) are not specially modelled. -/
def jsNumberOfInt (x : Int) : Int :=
  x.sign * Int.ofNat (roundDoubleNat x.natAbs)

/-- JavaScript truthiness of an optional number (`if (x)`): `undefined` and
`0` are falsy. -/
def jsTruthyNum (t : Option Int) : Bool :=
  match t with
  | none => false
  | some v => v != 0

/-- JavaScript `s?.toString() || null` on an optional string: absent and
empty strings collapse to null. -/
def jsStrOrNull (s : Option String) : Option String :=
  match s with
  | some t => if t = "" then none else some t
  | none => none

/-- `pat` is a leading piece of `s` (JavaScript `s.startsWith(pat)`). -/
def strStartsWith (s pat : String) : Bool :=
  pat.data.isPrefixOf s.data

/-- `sub` occurs somewhere inside `s` (JavaScript `s.includes(sub)`). -/
def containsSubstr (s sub : String) : Bool :=
  (List.range (s.data.length + 1)).any (fun i => sub.data.isPrefixOf (s.data.drop i))

/-! ## Data model -/

/-- One row of `admin.fetchTopicOffsets(topic)`: a watermark snapshot. -/
structure PartitionOffsets where
  partition : Nat
  low : Int
  high : Int
deriving DecidableEq

/-- One row of `admin.fetchTopicOffsetsByTimestamp(topic, ts)`. -/
structure TimestampOffset where
  partition : Nat
  offset : Int
deriving DecidableEq

/-- `MessageOptions` from shared/types: the fetch request. -/
structure MessageOptions where
  partition : Option Nat
  fromOffset : Option Int
  fromTimestamp : Option Int
  limit : Option Nat
deriving DecidableEq

/-- The anchor of a `ResetOffsetOptions` request. -/
inductive ResetType where
  | earliest
  | latest
  | timestamp
  | offsetAnchor
deriving DecidableEq

/-- `ResetOffsetOptions` from shared/types. -/
structure ResetOffsetOptions where
  type : ResetType
  timestamp : Option Int
  offset : Option Int
  partitions : Option (List Nat)
deriving DecidableEq

/-- A record as surfaced by the consumer callback. -/
structure IncomingMessage where
  partition : Nat
  offset : Int
  timestamp : Int
  key : Option String
  value : Option String
  headers : List (String × Option String)
deriving DecidableEq

/-- A record as pushed into the result array by `eachMessage`. -/
structure CollectedMessage where
  partition : Nat
  offset : Int
  timestamp : Int
  key : Option String
  value : Option String
  headers : List (String × String)
deriving DecidableEq

/-- The `eachMessage` body's transformation of a record before pushing it. -/
def collectMessage (m : IncomingMessage) : CollectedMessage :=
  { partition := m.partition
    offset := m.offset
    timestamp := m.timestamp
    key := jsStrOrNull m.key
    value := jsStrOrNull m.value
    headers := m.headers.map (fun kv => (kv.1, kv.2.getD "")) }

/-- The value `getMessages` resolves with. -/
structure FetchResult where
  messages : List CollectedMessage
  hasMore : Bool
  nextOffset : Option Int
  nextPartition : Option Nat
deriving DecidableEq

/-- How a `getMessages` call settles: resolution or rejection. -/
inductive FetchOutcome where
  | ok (r : FetchResult)
  | errored
deriving DecidableEq

/-! ## Fetch pre-phase: watermark pre-check, seek map, demand estimation -/

/-- An entry of the `seekMap` built by `getMessages`. -/
structure SeekEntry where
  partition : Nat
  seekOffset : Int
  high : Int
deriving DecidableEq

/-- `Map.set` semantics on the seek map: replace the entry with the same
partition key, else append. -/
def setEntry (m : List SeekEntry) (e : SeekEntry) : List SeekEntry :=
  if m.any (fun x => x.partition == e.partition) then
    m.map (fun x => if x.partition == e.partition then e else x)
  else m ++ [e]

/-- `partition !== undefined && p !== partition` in negated form: does `p`
pass the optional partition filter? -/
def partitionMatches (filt : Option Nat) (p : Nat) : Bool :=
  match filt with
  | some q => p == q
  | none => true

/-- The `targetOffsets` selection: all partitions, or the single requested one. -/
def targetOffsetsOf (filt : Option Nat) (tOffs : List PartitionOffsets) : List PartitionOffsets :=
  match filt with
  | some p => tOffs.filter (fun o => o.partition == p)
  | none => tOffs

/-- The else-branch of the seek-map construction: per target partition, the
start offset is the explicit `fromOffset` (nullish-coalesced) or the low
watermark. -/
def seekMapFromOffsets (filt : Option Nat) (fromOffset : Option Int)
    (tOffs : List PartitionOffsets) : List SeekEntry :=
  (targetOffsetsOf filt tOffs).foldl
    (fun m off => setEntry m ⟨off.partition, fromOffset.getD off.low, off.high⟩) []

/-- The timestamp-branch of the seek-map construction: per row of the
timestamp index that passes the filter and has a matching watermark row,
seek to the index result. -/
def seekMapFromTimestamp (filt : Option Nat) (tOffs : List PartitionOffsets)
    (tsIdx : List TimestampOffset) : List SeekEntry :=
  let tgt := targetOffsetsOf filt tOffs
  tsIdx.foldl
    (fun m t =>
      if partitionMatches filt t.partition then
        match tgt.find? (fun o => o.partition == t.partition) with
        | some matched => setEntry m ⟨t.partition, t.offset, matched.high⟩
        | none => m
      else m) []

/-- The seek map built by `getMessages`: the timestamp branch is taken
exactly when `fromTimestamp` is truthy. -/
def buildSeekMap (opts : MessageOptions) (tOffs : List PartitionOffsets)
    (tsIdx : List TimestampOffset) : List SeekEntry :=
  if jsTruthyNum opts.fromTimestamp then
    seekMapFromTimestamp opts.partition tOffs tsIdx
  else
    seekMapFromOffsets opts.partition opts.fromOffset tOffs

/-- `Number(BigInt(high) - BigInt(seekOffset))`: the per-partition demand. -/
def availableOf (e : SeekEntry) : Int :=
  jsNumberOfInt (e.high - e.seekOffset)

/-- `totalExpected` before clamping: sum of the positive per-partition
demands, accumulated with JavaScript number addition. -/
def totalAvailableOf (m : List SeekEntry) : Int :=
  m.foldl
    (fun acc e =>
      let a := availableOf e
      if 0 < a then jsNumberOfInt (acc + a) else acc) 0

/-- `Math.min(limit ?? 100, 500)`: the effective result cap. -/
def maxLimitOf (limit : Option Nat) : Nat :=
  min (limit.getD 100) 500

/-! ## Fetch loop: the promise body as a state machine -/

/-- The fixed data of one fetch loop. -/
structure FetchCfg where
  partitionFilter : Option Nat
  maxLimit : Nat
  totalAvailable : Int
deriving DecidableEq

/-- `totalExpected = Math.min(totalExpected, maxLimit)` after the
short-circuit check. -/
def FetchCfg.totalExpected (c : FetchCfg) : Int :=
  min c.totalAvailable (c.maxLimit : Int)

/-- The mutable state of the promise body, plus ghost fields: `cleanupRuns`
counts executions of the cleanup body, `tracked` is membership of the
ephemeral group id in the session's tracked set, `outcome` is the settled
value of the promise. -/
structure LoopState where
  messages : List CollectedMessage
  messageCount : Nat
  lastOffset : Option Int
  lastPartition : Option Nat
  resolved : Bool
  cleanedUp : Bool
  cleanupRuns : Nat
  tracked : Bool
  outcome : Option FetchOutcome
deriving DecidableEq

/-- State before any event: nothing collected, group tracked, promise pending. -/
def initLoopState : LoopState :=
  { messages := []
    messageCount := 0
    lastOffset := none
    lastPartition := none
    resolved := false
    cleanedUp := false
    cleanupRuns := 0
    tracked := true
    outcome := none }

/-- The `cleanup` closure: guarded by the `cleanedUp` flag, it disconnects
the consumer, deletes the ephemeral group ignoring already-gone errors, and
unregisters the group id from the session's tracked set. -/
def runCleanup (s : LoopState) : LoopState :=
  if s.cleanedUp then s
  else { s with cleanedUp := true, cleanupRuns := s.cleanupRuns + 1, tracked := false }

/-- The object passed to `resolve`: `nextOffset` is `lastOffset + 1` when
`hasMore` and a record was collected, `nextPartition` is the partition of
the last record when `hasMore`. -/
def mkResult (hasMore : Bool) (s : LoopState) : FetchResult :=
  { messages := s.messages
    hasMore := hasMore
    nextOffset := if hasMore then s.lastOffset.map (· + 1) else none
    nextPartition := if hasMore then s.lastPartition else none }

/-- The `finish` closure: first writer wins via the `resolved` flag, timers
are cleared, cleanup runs, then the promise resolves. -/
def finishFetch (hasMore : Bool) (s : LoopState) : LoopState :=
  if s.resolved then s
  else
    let s2 := runCleanup { s with resolved := true }
    { s2 with outcome := some (.ok (mkResult hasMore s2)) }

/-- The `consumer.run(...).catch` handler: guarded by `resolved`, clears
timers, runs cleanup, then rejects. -/
def failFetch (s : LoopState) : LoopState :=
  if s.resolved then s
  else
    let s2 := runCleanup { s with resolved := true }
    { s2 with outcome := some .errored }

/-- The collection part of the `eachMessage` body: push the record and
update the count and last-seen position. -/
def pushMessage (m : IncomingMessage) (s : LoopState) : LoopState :=
  { s with
    messages := s.messages ++ [collectMessage m]
    messageCount := s.messageCount + 1
    lastOffset := some m.offset
    lastPartition := some m.partition }

/-- The `eachMessage` handler: drop when already resolved or filtered out;
stop at the cap; otherwise collect and re-check the cap and the demand
estimate. -/
def stepMessage (c : FetchCfg) (m : IncomingMessage) (s : LoopState) : LoopState :=
  if s.resolved then s
  else if partitionMatches c.partitionFilter m.partition = false then s
  else if c.maxLimit ≤ s.messageCount then finishFetch true s
  else if c.maxLimit ≤ (pushMessage m s).messageCount then finishFetch true (pushMessage m s)
  else if c.totalExpected ≤ ((pushMessage m s).messageCount : Int) then
    finishFetch false (pushMessage m s)
  else pushMessage m s

/-- The events that can race to settle one fetch call. -/
inductive FetchEvent where
  | message (m : IncomingMessage)
  | idleTimeout
  | overallTimeout
  | runError
deriving DecidableEq

/-- One atomic event-loop turn of the fetch promise body. -/
def stepEvent (c : FetchCfg) (e : FetchEvent) (s : LoopState) : LoopState :=
  match e with
  | .message m => stepMessage c m s
  | .idleTimeout => finishFetch false s
  | .overallTimeout => finishFetch false s
  | .runError => failFetch s

/-- The whole collection phase: fold the events over the initial state. -/
def runFetch (c : FetchCfg) (events : List FetchEvent) : LoopState :=
  events.foldl (fun s e => stepEvent c e s) initLoopState

/-! ## getMessages top level -/

/-- The ephemeral group name `topiq-explorer-consumer-` ++ uuid created by
`getMessages`. -/
def mkEphemeralGroupId (uuid : String) : String :=
  "topiq-explorer-consumer-" ++ uuid

/-- Observable summary of one `getMessages` call: how it settled, how many
consumers were created / connect / subscribe calls issued, the session's
tracked ephemeral set afterwards, and how often the cleanup body ran. -/
structure FetchCallRes where
  outcome : Option FetchOutcome
  consumersCreated : Nat
  connectCalls : Nat
  subscribeCalls : Nat
  tempGroupsAfter : List String
  cleanupRuns : Nat
deriving DecidableEq

/-- `KafkaService.getMessages` over an abstract broker: `tOffs` is the
watermark snapshot, `tsIdx` the timestamp index, `uuid` the random group
suffix, `setupFails` whether `consumer.connect`/`subscribe` throws,
`events` the event-loop schedule of the collection phase, `tg` the
session's tracked ephemeral set before the call. -/
def getMessagesModel (opts : MessageOptions) (tOffs : List PartitionOffsets)
    (tsIdx : List TimestampOffset) (uuid : String) (setupFails : Bool)
    (events : List FetchEvent) (tg : List String) : FetchCallRes :=
  let maxLimit := maxLimitOf opts.limit
  let seekMap := buildSeekMap opts tOffs tsIdx
  let avail := totalAvailableOf seekMap
  if avail = 0 then
    { outcome := some (.ok ⟨[], false, none, none⟩)
      consumersCreated := 0
      connectCalls := 0
      subscribeCalls := 0
      tempGroupsAfter := tg
      cleanupRuns := 0 }
  else
    let groupId := mkEphemeralGroupId uuid
    let tg1 := if groupId ∈ tg then tg else tg ++ [groupId]
    if setupFails then
      { outcome := some .errored
        consumersCreated := 1
        connectCalls := 1
        subscribeCalls := 1
        tempGroupsAfter := tg1.filter (fun g => g ≠ groupId)
        cleanupRuns := 1 }
    else
      let cfg : FetchCfg := ⟨opts.partition, maxLimit, avail⟩
      let final := runFetch cfg events
      { outcome := final.outcome
        consumersCreated := 1
        connectCalls := 1
        subscribeCalls := 1
        tempGroupsAfter := if final.tracked then tg1 else tg1.filter (fun g => g ≠ groupId)
        cleanupRuns := final.cleanupRuns }

/-! ## Offset reset engine -/

/-- Administrative calls issued by the reset engine, in order. -/
inductive AdminCall where
  | fetchTopicOffsets (topic : String)
  | fetchOffsetsByTs (topic : String) (ts : Int)
  | setOffsets (groupId : String) (topic : String) (partitions : List (Nat × Int))
deriving DecidableEq

/-- The commit calls among an administrative trace. -/
def commitsOf (calls : List AdminCall) : List AdminCall :=
  calls.filter (fun c =>
    match c with
    | .setOffsets _ _ _ => true
    | _ => false)

/-- `Map.set` semantics keyed by partition for the watermark lookup map. -/
def setPO (m : List PartitionOffsets) (e : PartitionOffsets) : List PartitionOffsets :=
  if m.any (fun x => x.partition == e.partition) then
    m.map (fun x => if x.partition == e.partition then e else x)
  else m ++ [e]

/-- `new Map(topicOffsets.map(p => [p.partition, p]))`. -/
def buildOffsetMap (tOffs : List PartitionOffsets) : List PartitionOffsets :=
  tOffs.foldl setPO []

/-- `KafkaService.resetOffsets` over an abstract broker: returns the
outcome together with the trace of administrative calls. -/
def resetOffsetsModel (groupId topic : String) (tOffs : List PartitionOffsets)
    (tsIdx : List TimestampOffset) (options : ResetOffsetOptions) :
    Except String Unit × List AdminCall :=
  let calls0 : List AdminCall := [.fetchTopicOffsets topic]
  let offsetMap := buildOffsetMap tOffs
  let partitions := options.partitions.getD (tOffs.map (fun p => p.partition))
  match options.type with
  | .earliest =>
      let newOffsets := partitions.map (fun p =>
        (p, ((offsetMap.find? (fun o => o.partition == p)).map (fun o => o.low)).getD 0))
      (.ok (), calls0 ++ [.setOffsets groupId topic newOffsets])
  | .latest =>
      let newOffsets := partitions.map (fun p =>
        (p, ((offsetMap.find? (fun o => o.partition == p)).map (fun o => o.high)).getD 0))
      (.ok (), calls0 ++ [.setOffsets groupId topic newOffsets])
  | .timestamp =>
      if jsTruthyNum options.timestamp = false then
        (.error ("Timestamp required"), calls0)
      else
        let ts := options.timestamp.getD 0
        let newOffsets := partitions.map (fun p =>
          (p, ((tsIdx.find? (fun o => o.partition == p)).map (fun o => o.offset)).getD 0))
        (.ok (), calls0 ++ [.fetchOffsetsByTs topic ts, .setOffsets groupId topic newOffsets])
  | .offsetAnchor =>
      match options.offset with
      | none => (.error ("Offset required"), calls0)
      | some o =>
          (.ok (), calls0 ++ [.setOffsets groupId topic (partitions.map (fun p => (p, o)))])

/-- Modelled from the spec: the per-partition offset a reset request should
resolve to — earliest to the low watermark, latest to the high watermark,
timestamp to the timestamp-index result falling back to 0, explicit offset
to the literal value for every partition. -/
def specResolve (options : ResetOffsetOptions) (tOffs : List PartitionOffsets)
    (tsIdx : List TimestampOffset) (p : Nat) : Int :=
  match options.type with
  | .earliest => ((tOffs.find? (fun o => o.partition == p)).map (fun o => o.low)).getD 0
  | .latest => ((tOffs.find? (fun o => o.partition == p)).map (fun o => o.high)).getD 0
  | .timestamp => ((tsIdx.find? (fun o => o.partition == p)).map (fun o => o.offset)).getD 0
  | .offsetAnchor => options.offset.getD 0

/-! ## Session registry: connect, disconnect -/

/-- A per-connection client session: the administrative and producer handle
and the registered consumers. Handles are identified by numbers drawn from
a counter. -/
structure KafkaInstanceM where
  admin : Nat
  producer : Nat
  consumers : List (String × Nat)
deriving DecidableEq

/-- The `KafkaService` fields: the module-level instance map, the temporary
group bookkeeping, and a fresh-handle counter. -/
structure ServiceState where
  instances : List (String × KafkaInstanceM)
  tempGroups : List (String × List String)
  nextHandle : Nat
deriving DecidableEq

/-- `KafkaService.connect`: return immediately when a session exists,
otherwise propagate the admin/producer connect outcomes and register the
new handle pair with an empty consumer map. -/
def connectFull (s : ServiceState) (id : String)
    (adminResult producerResult : Except String Unit) : Except String ServiceState :=
  if s.instances.any (fun e => e.1 == id) then .ok s
  else
    match adminResult with
    | .error e => .error e
    | .ok () =>
      match producerResult with
      | .error e => .error e
      | .ok () =>
          .ok { s with
            instances := s.instances ++ [(id, ⟨s.nextHandle, s.nextHandle + 1, []⟩)]
            nextHandle := s.nextHandle + 2 }

/-- The teardown actions attempted by `disconnect`, in order. -/
inductive TeardownStep where
  | consumerDisconnect (handle : Nat)
  | deleteGroups (groups : List String)
  | producerDisconnect (handle : Nat)
  | adminDisconnect (handle : Nat)
deriving DecidableEq

/-- Result of a `disconnect` call: the new registry state, the ordered
trace of attempted teardown actions, and the number of collected (not
re-thrown) failures. -/
structure DisconnectRes where
  state : ServiceState
  trace : List TeardownStep
  errors : Nat
deriving DecidableEq

/-- `KafkaService.disconnect` with a failure oracle `fail` saying which
teardown actions throw: a no-op when no session exists; otherwise every
consumer is disconnected (failures collected), the tracked ephemeral
groups are deleted and cleared before the admin handle goes down, then the
producer and admin handles are closed and the session is removed. Nothing
is re-thrown. -/
def disconnectS (fail : TeardownStep → Bool) (s : ServiceState) (id : String) : DisconnectRes :=
  match s.instances.find? (fun e => e.1 == id) with
  | none => ⟨s, [], 0⟩
  | some inst =>
      let consSteps := inst.2.consumers.map (fun c => TeardownStep.consumerDisconnect c.2)
      let consErrors := (consSteps.filter fail).length
      let tracked := ((s.tempGroups.find? (fun g => g.1 == id)).map (fun g => g.2)).getD []
      let groupSteps : List TeardownStep :=
        if tracked.isEmpty then [] else [.deleteGroups tracked]
      let prodStep := TeardownStep.producerDisconnect inst.2.producer
      let adminStep := TeardownStep.adminDisconnect inst.2.admin
      let errors := consErrors + (if fail prodStep then 1 else 0) + (if fail adminStep then 1 else 0)
      let s' : ServiceState :=
        { s with
          instances := s.instances.filter (fun e => ¬ e.1 == id)
          tempGroups := s.tempGroups.map (fun g => if g.1 == id then (g.1, ([] : List String)) else g) }
      ⟨s', consSteps ++ groupSteps ++ [prodStep, adminStep], errors⟩

/-! ## TLS error mapping and test-connect -/

/-- The table of TLS sub-cause codes and their operator-facing messages, in
source order. -/
def tlsErrorTable : List (String × String) :=
  [("DEPTH_ZERO_SELF_SIGNED_CERT",
    "The server is using a self-signed certificate. Enable \"Skip certificate verification\" to connect."),
   ("SELF_SIGNED_CERT_IN_CHAIN",
    "The certificate chain contains a self-signed certificate. Provide the CA certificate or enable \"Skip certificate verification\"."),
   ("UNABLE_TO_VERIFY_LEAF_SIGNATURE",
    "Unable to verify the server certificate. Provide the correct CA certificate or enable \"Skip certificate verification\"."),
   ("CERT_HAS_EXPIRED",
    "The server certificate has expired. Contact the cluster administrator."),
   ("ERR_TLS_CERT_ALTNAME_INVALID",
    "The server hostname does not match the certificate. Check the broker address or provide the correct certificate."),
   ("UNABLE_TO_GET_ISSUER_CERT",
    "Unable to find the certificate issuer. Provide the CA certificate."),
   ("UNABLE_TO_GET_ISSUER_CERT_LOCALLY",
    "Unable to find the certificate issuer locally. Provide the CA certificate."),
   ("ERR_OSSL_EVP_BAD_DECRYPT",
    "Could not decrypt the private key. Check the passphrase."),
   ("ERR_OSSL_PEM_BAD_BASE64_DECODE",
    "The certificate or key file is malformed. Ensure it is a valid PEM file.")]

/-- `KafkaService.mapTlsError`: the first code contained in the raw message
wins; an unrecognised message is returned unchanged. -/
def mapTlsError (message : String) : String :=
  match tlsErrorTable.find? (fun p => containsSubstr message p.1) with
  | some p => p.2
  | none => message

/-- The value `testConnection` resolves with. -/
structure TestResult where
  success : Bool
  error : Option String
deriving DecidableEq

/-- `KafkaService.testConnection`: on failure the raw error message is
re-mapped through `mapTlsError` before being surfaced. -/
def testConnectionModel (adminOutcome : Except String Unit) : TestResult :=
  match adminOutcome with
  | .ok () => ⟨true, none⟩
  | .error e => ⟨false, some (mapTlsError e)⟩

/-! ## Orphan group reaper -/

/-- The name filter of the reaper in the `kafka:connect` IPC handler. -/
def reaperPat : String :=
  "kafka-explorer-consumer-"

/-- The reaper's selection: the listed group ids whose name starts with
`reaperPat`. -/
def reaperSelects (groups : List String) : List String :=
  groups.filter (fun g => strStartsWith g reaperPat)

/-! ## Helper lemmas -/

/-- Folding preserves any invariant preserved by each step. -/
theorem foldl_preserve {α β : Type} (f : β → α → β) (P : β → Prop)
    (h : ∀ b a, P b → P (f b a)) :
    ∀ (l : List α) (b : β), P b → P (l.foldl f b)
  | [], _, hb => hb
  | a :: t, b, hb => foldl_preserve f P h t (f b a) (h b a hb)

/-- Rounding to a double is the identity at or below 2^53. -/
theorem roundDoubleNat_small (a : Nat) (h : a ≤ 2 ^ 53) : roundDoubleNat a = a := by
  unfold roundDoubleNat
  rw [if_pos h]

/-- Rounding to a double preserves strict positivity. -/
theorem roundDoubleNat_pos (a : Nat) (h : 0 < a) : 0 < roundDoubleNat a := by
  unfold roundDoubleNat
  split
  · exact h
  · rename_i hle
    have hpow : 2 ^ (Nat.log2 a - 52) ≤ a := by
      calc 2 ^ (Nat.log2 a - 52) ≤ 2 ^ Nat.log2 a :=
            Nat.pow_le_pow_right (by norm_num) (Nat.sub_le _ _)
        _ ≤ a := (Nat.le_log2 (by omega)).mp le_rfl
    have hq : 0 < a / 2 ^ (Nat.log2 a - 52) :=
      Nat.div_pos hpow (Nat.pos_pow_of_pos _ (by norm_num))
    have h2 : (0:Nat) < 2 ^ (Nat.log2 a - 52) := Nat.pos_pow_of_pos _ (by norm_num)
    dsimp only
    split
    · positivity
    · positivity

/-- The JavaScript number conversion is exact at or below 2^53. -/
theorem jsNumberOfInt_eq_self (x : Int) (h : x.natAbs ≤ 2 ^ 53) :
    jsNumberOfInt x = x := by
  unfold jsNumberOfInt
  rw [roundDoubleNat_small _ h]
  exact Int.sign_mul_natAbs x

/-- The JavaScript number conversion preserves strict positivity. -/
theorem jsNumberOfInt_pos (x : Int) (h : 0 < x) : 0 < jsNumberOfInt x := by
  unfold jsNumberOfInt
  rw [Int.sign_eq_one_of_pos h, one_mul]
  exact Int.ofNat_pos.mpr (roundDoubleNat_pos _ (Int.natAbs_pos.mpr (ne_of_gt h)))

/-- The accumulated demand estimate is never negative. -/
theorem totalAvailableOf_nonneg (m : List SeekEntry) : 0 ≤ totalAvailableOf m := by
  unfold totalAvailableOf
  exact foldl_preserve _ (fun acc => 0 ≤ acc)
    (fun acc e hacc => by
      dsimp only
      split
      · have : (0:Int) < acc + availableOf e := by omega
        exact le_of_lt (jsNumberOfInt_pos _ this)
      · exact hacc) m 0 le_rfl

/-! ## The cleanup invariant of the fetch loop -/

/-- Resolution and cleanup march in lock step: the promise is settled
exactly when the cleanup body has run, the cleanup body has run at most
once, and the group id is tracked exactly until cleanup. -/
def cleanInv (s : LoopState) : Prop :=
  s.resolved = s.cleanedUp ∧
  s.cleanupRuns = (if s.cleanedUp then 1 else 0) ∧
  s.tracked = !s.cleanedUp ∧
  s.outcome.isSome = s.resolved

theorem cleanInv_init : cleanInv initLoopState := by
  simp [cleanInv, initLoopState]

theorem cleanInv_finishFetch (b : Bool) (s : LoopState) (h : cleanInv s) :
    cleanInv (finishFetch b s) := by
  obtain ⟨h1, h2, h3, h4⟩ := h
  unfold finishFetch runCleanup
  split
  · exact ⟨h1, h2, h3, h4⟩
  · rename_i hr
    have hr' : s.resolved = false := by simpa using hr
    have hc : s.cleanedUp = false := by rw [hr'] at h1; exact h1.symm
    have h2' : s.cleanupRuns = 0 := by rw [hc] at h2; simpa using h2
    simp [cleanInv, hc, h2']

theorem cleanInv_failFetch (s : LoopState) (h : cleanInv s) :
    cleanInv (failFetch s) := by
  obtain ⟨h1, h2, h3, h4⟩ := h
  unfold failFetch runCleanup
  split
  · exact ⟨h1, h2, h3, h4⟩
  · rename_i hr
    have hr' : s.resolved = false := by simpa using hr
    have hc : s.cleanedUp = false := by rw [hr'] at h1; exact h1.symm
    have h2' : s.cleanupRuns = 0 := by rw [hc] at h2; simpa using h2
    simp [cleanInv, hc, h2']

theorem cleanInv_pushMessage (m : IncomingMessage) (s : LoopState) (h : cleanInv s) :
    cleanInv (pushMessage m s) := h

theorem cleanInv_stepMessage (c : FetchCfg) (m : IncomingMessage) (s : LoopState)
    (h : cleanInv s) : cleanInv (stepMessage c m s) := by
  unfold stepMessage
  split
  · exact h
  · split
    · exact h
    · split
      · exact cleanInv_finishFetch true s h
      · split
        · exact cleanInv_finishFetch true _ (cleanInv_pushMessage m s h)
        · split
          · exact cleanInv_finishFetch false _ (cleanInv_pushMessage m s h)
          · exact cleanInv_pushMessage m s h

theorem cleanInv_stepEvent (c : FetchCfg) (e : FetchEvent) (s : LoopState)
    (h : cleanInv s) : cleanInv (stepEvent c e s) := by
  cases e with
  | message m => exact cleanInv_stepMessage c m s h
  | idleTimeout => exact cleanInv_finishFetch false s h
  | overallTimeout => exact cleanInv_finishFetch false s h
  | runError => exact cleanInv_failFetch s h

theorem cleanInv_runFetch (c : FetchCfg) (events : List FetchEvent) :
    cleanInv (runFetch c events) :=
  foldl_preserve _ cleanInv (fun s e => cleanInv_stepEvent c e s) events initLoopState cleanInv_init

/-! ## The counting invariant of the fetch loop -/

theorem runCleanup_messages (s : LoopState) : (runCleanup s).messages = s.messages := by
  unfold runCleanup; split <;> rfl

theorem runCleanup_messageCount (s : LoopState) :
    (runCleanup s).messageCount = s.messageCount := by
  unfold runCleanup; split <;> rfl

theorem runCleanup_lastOffset (s : LoopState) : (runCleanup s).lastOffset = s.lastOffset := by
  unfold runCleanup; split <;> rfl

theorem runCleanup_lastPartition (s : LoopState) :
    (runCleanup s).lastPartition = s.lastPartition := by
  unfold runCleanup; split <;> rfl

theorem runCleanup_resolved (s : LoopState) : (runCleanup s).resolved = s.resolved := by
  unfold runCleanup; split <;> rfl

theorem pushMessage_messageCount (m : IncomingMessage) (s : LoopState) :
    (pushMessage m s).messageCount = s.messageCount + 1 := rfl

theorem pushMessage_messages (m : IncomingMessage) (s : LoopState) :
    (pushMessage m s).messages = s.messages ++ [collectMessage m] := rfl

theorem pushMessage_lastOffset (m : IncomingMessage) (s : LoopState) :
    (pushMessage m s).lastOffset = some m.offset := rfl

theorem pushMessage_lastPartition (m : IncomingMessage) (s : LoopState) :
    (pushMessage m s).lastPartition = some m.partition := rfl

theorem pushMessage_resolved (m : IncomingMessage) (s : LoopState) :
    (pushMessage m s).resolved = s.resolved := rfl

theorem pushMessage_outcome (m : IncomingMessage) (s : LoopState) :
    (pushMessage m s).outcome = s.outcome := rfl

/-- Counting invariant: collected records never exceed the cap or the
capped demand estimate, unresolved states are strictly below both bounds
(or still empty), and any resolution carries the claimed `hasMore` and
resumption-token facts. -/
def loopInv (c : FetchCfg) (s : LoopState) : Prop :=
  s.messageCount = s.messages.length ∧
  (1 ≤ s.messageCount → s.lastOffset.isSome = true ∧ s.lastPartition.isSome = true) ∧
  (s.outcome.isSome = true → s.resolved = true) ∧
  (s.resolved = false →
      s.messageCount = 0 ∨
        (s.messageCount < c.maxLimit ∧ (s.messageCount : Int) < c.totalExpected)) ∧
  s.messageCount ≤ c.maxLimit ∧
  (s.messageCount : Int) ≤ c.totalExpected ∧
  (∀ r, s.outcome = some (.ok r) →
      r.messages = s.messages ∧
      (r.messages.length = c.maxLimit → 1 ≤ c.maxLimit → (c.maxLimit : Int) < c.totalAvailable →
          r.hasMore = true ∧ r.nextOffset.isSome = true ∧ r.nextPartition.isSome = true) ∧
      ((r.messages.length : Int) = c.totalAvailable → c.totalAvailable < (c.maxLimit : Int) →
          r.hasMore = false))

theorem loopInv_init (c : FetchCfg) (hA : 1 ≤ c.totalAvailable) :
    loopInv c initLoopState := by
  refine ⟨rfl, by simp [initLoopState], by simp [initLoopState], ?_, by simp [initLoopState],
    ?_, by simp [initLoopState]⟩
  · intro _
    exact Or.inl rfl
  · show ((0 : Nat) : Int) ≤ c.totalExpected
    unfold FetchCfg.totalExpected
    omega

/-- Building a resolved state out of an unresolved one preserves the
counting invariant, given the `hasMore`/token facts at this finish site. -/
theorem loopInv_finish_build (c : FetchCfg) (b : Bool) (s : LoopState)
    (h1 : s.messageCount = s.messages.length)
    (h2 : 1 ≤ s.messageCount → s.lastOffset.isSome = true ∧ s.lastPartition.isSome = true)
    (h5 : s.messageCount ≤ c.maxLimit)
    (h6 : (s.messageCount : Int) ≤ c.totalExpected)
    (hB1 : s.messages.length = c.maxLimit → 1 ≤ c.maxLimit → (c.maxLimit : Int) < c.totalAvailable →
        b = true ∧ s.lastOffset.isSome = true ∧ s.lastPartition.isSome = true)
    (hB2 : (s.messages.length : Int) = c.totalAvailable → c.totalAvailable < (c.maxLimit : Int) →
        b = false)
    (hr : s.resolved = false) :
    loopInv c (finishFetch b s) := by
  unfold finishFetch
  rw [if_neg (by simp [hr])]
  simp only [loopInv, runCleanup_messages, runCleanup_messageCount, runCleanup_lastOffset,
    runCleanup_lastPartition, runCleanup_resolved]
  refine ⟨h1, h2, by simp, by simp, h5, h6, ?_⟩
  intro r hrr
  have hreq : mkResult b (runCleanup { s with resolved := true }) = r := by
    simpa using hrr
  subst hreq
  refine ⟨by simp [mkResult, runCleanup_messages], ?_, ?_⟩
  · intro hlen hm1 hm2
    have hlen' : s.messages.length = c.maxLimit := by
      simpa [mkResult, runCleanup_messages] using hlen
    obtain ⟨hb, ho, hp⟩ := hB1 hlen' hm1 hm2
    subst hb
    refine ⟨rfl, ?_, ?_⟩
    · simpa [mkResult, runCleanup_lastOffset, Option.isSome_map] using ho
    · simpa [mkResult, runCleanup_lastPartition] using hp
  · intro hlen hm
    have hlen' : (s.messages.length : Int) = c.totalAvailable := by
      simpa [mkResult, runCleanup_messages] using hlen
    have hb := hB2 hlen' hm
    subst hb
    rfl

theorem loopInv_failFetch (c : FetchCfg) (s : LoopState) (hinv : loopInv c s) :
    loopInv c (failFetch s) := by
  obtain ⟨h1, h2, h3, h4, h5, h6, h7⟩ := hinv
  unfold failFetch
  split
  · exact ⟨h1, h2, h3, h4, h5, h6, h7⟩
  · simp only [loopInv, runCleanup_messages, runCleanup_messageCount, runCleanup_lastOffset,
      runCleanup_lastPartition, runCleanup_resolved]
    exact ⟨h1, h2, by simp, by simp, h5, h6, by simp⟩

/-- The two timeout paths resolve with `hasMore = false`; the claimed facts
hold vacuously because an unresolved state is strictly below both bounds. -/
theorem loopInv_finishTimeout (c : FetchCfg) (s : LoopState)
    (hA : 1 ≤ c.totalAvailable) (hinv : loopInv c s) :
    loopInv c (finishFetch false s) := by
  by_cases hres : s.resolved = true
  · unfold finishFetch
    rw [if_pos hres]
    exact hinv
  · obtain ⟨h1, h2, h3, h4, h5, h6, h7⟩ := hinv
    have hr : s.resolved = false := by simpa using hres
    have hmc : c.totalExpected = c.totalAvailable ∨ c.totalExpected = (c.maxLimit : Int) :=
      min_choice _ _
    have hle1 : c.totalExpected ≤ c.totalAvailable := min_le_left _ _
    have hle2 : c.totalExpected ≤ (c.maxLimit : Int) := min_le_right _ _
    apply loopInv_finish_build c false s h1 h2 h5 h6 ?_ ?_ hr
    · intro hlen hm1 _
      exfalso
      rcases h4 hr with h0 | ⟨hlt, _⟩ <;> omega
    · intro hlen hm
      exfalso
      rcases h4 hr with h0 | ⟨_, hlt2⟩ <;> rcases hmc with hm' | hm' <;> omega

theorem loopInv_stepMessage (c : FetchCfg) (m : IncomingMessage) (s : LoopState)
    (hA : 1 ≤ c.totalAvailable) (hinv : loopInv c s) :
    loopInv c (stepMessage c m s) := by
  obtain ⟨h1, h2, h3, h4, h5, h6, h7⟩ := hinv
  have hmc : c.totalExpected = c.totalAvailable ∨ c.totalExpected = (c.maxLimit : Int) :=
    min_choice _ _
  have hle1 : c.totalExpected ≤ c.totalAvailable := min_le_left _ _
  have hle2 : c.totalExpected ≤ (c.maxLimit : Int) := min_le_right _ _
  unfold stepMessage
  split
  · exact ⟨h1, h2, h3, h4, h5, h6, h7⟩
  · split
    · exact ⟨h1, h2, h3, h4, h5, h6, h7⟩
    · rename_i hnr _
      have hr : s.resolved = false := by simpa using hnr
      have hnone : s.outcome = none := by
        cases hopt : s.outcome with
        | none => rfl
        | some o => exact absurd (h3 (by simp [hopt])) (by simp [hr])
      have hpc : (pushMessage m s).messageCount = s.messageCount + 1 :=
        pushMessage_messageCount m s
      have hpl : (pushMessage m s).messages.length = s.messageCount + 1 := by
        simp [pushMessage_messages, h1]
      split
      · -- cap already reached before collecting: only possible with cap = 0
        rename_i hcap
        have hz : s.messageCount = 0 ∧ c.maxLimit = 0 := by
          rcases h4 hr with h0 | ⟨hlt, _⟩ <;> omega
        apply loopInv_finish_build c true s h1 h2 h5 h6 ?_ ?_ hr
        · intro _ hm1 _
          exfalso
          omega
        · intro hlen _
          exfalso
          omega
      · rw [hpc]
        split
        · -- cap reached by this record: hasMore = true with a token
          rename_i hcap hcap2
          apply loopInv_finish_build c true (pushMessage m s) ?_ ?_ ?_ ?_ ?_ ?_ ?_
          · simp [pushMessage_messages, pushMessage_messageCount, h1]
          · intro _
            simp [pushMessage_lastOffset, pushMessage_lastPartition]
          · rw [hpc]; omega
          · rw [hpc]
            rcases h4 hr with h0 | ⟨_, hlt2⟩ <;> rcases hmc with hm' | hm' <;> omega
          · intro _ _ _
            exact ⟨rfl, by simp [pushMessage_lastOffset], by simp [pushMessage_lastPartition]⟩
          · intro hlen hm
            exfalso
            rw [hpl] at hlen
            omega
          · simp [pushMessage_resolved, hr]
        · split
          · -- demand estimate reached: hasMore = false
            rename_i hcap hcap2 hexp
            apply loopInv_finish_build c false (pushMessage m s) ?_ ?_ ?_ ?_ ?_ ?_ ?_
            · simp [pushMessage_messages, pushMessage_messageCount, h1]
            · intro _
              simp [pushMessage_lastOffset, pushMessage_lastPartition]
            · rw [hpc]; omega
            · rw [hpc]
              rcases h4 hr with h0 | ⟨_, hlt2⟩ <;> rcases hmc with hm' | hm' <;> omega
            · intro hlen hm1 hm2
              exfalso
              rw [hpl] at hlen
              omega
            · intro _ _
              rfl
            · simp [pushMessage_resolved, hr]
          · -- keep collecting
            rename_i hcap hcap2 hexp
            refine ⟨?_, ?_, ?_, ?_, ?_, ?_, ?_⟩
            · simp [pushMessage_messages, pushMessage_messageCount, h1]
            · intro _
              simp [pushMessage_lastOffset, pushMessage_lastPartition]
            · intro hso
              rw [pushMessage_outcome, hnone] at hso
              exact absurd hso (by simp)
            · intro _
              refine Or.inr ⟨?_, ?_⟩
              · rw [hpc]; omega
              · rw [hpc]; omega
            · rw [hpc]; omega
            · rw [hpc]
              rcases h4 hr with h0 | ⟨_, hlt2⟩ <;> rcases hmc with hm' | hm' <;> omega
            · intro r hrr
              rw [pushMessage_outcome, hnone] at hrr
              exact absurd hrr (by simp)

theorem loopInv_stepEvent (c : FetchCfg) (e : FetchEvent) (s : LoopState)
    (hA : 1 ≤ c.totalAvailable) (hinv : loopInv c s) :
    loopInv c (stepEvent c e s) := by
  cases e with
  | message m => exact loopInv_stepMessage c m s hA hinv
  | idleTimeout => exact loopInv_finishTimeout c s hA hinv
  | overallTimeout => exact loopInv_finishTimeout c s hA hinv
  | runError => exact loopInv_failFetch c s hinv

theorem loopInv_runFetch (c : FetchCfg) (events : List FetchEvent)
    (hA : 1 ≤ c.totalAvailable) : loopInv c (runFetch c events) :=
  foldl_preserve _ (loopInv c) (fun s e h => loopInv_stepEvent c e s hA h) events
    initLoopState (loopInv_init c hA)

/-! ## Claims C1, C2, C3: the bounded fetch engine -/

/-- Claim C1: every getMessages call that proceeds past the empty-demand
short-circuit runs the cleanup sequence (disconnect the temporary
consumer, delete the ephemeral group ignoring already-gone errors,
unregister the group id) exactly once on every settled outcome — count
cap, demand satisfied, idle timeout, overall timeout, mid-collection run
error, or setup error — and afterwards the ephemeral group id is absent
from the session's tracked ephemeral set. -/
theorem getMessages_cleanup_exactly_once
    (opts : MessageOptions) (tOffs : List PartitionOffsets) (tsIdx : List TimestampOffset)
    (uuid : String) (setupFails : Bool) (events : List FetchEvent) (tg : List String)
    (hne : totalAvailableOf (buildSeekMap opts tOffs tsIdx) ≠ 0)
    (hdone : (getMessagesModel opts tOffs tsIdx uuid setupFails events tg).outcome.isSome = true) :
    (getMessagesModel opts tOffs tsIdx uuid setupFails events tg).cleanupRuns = 1 ∧
      mkEphemeralGroupId uuid ∉
        (getMessagesModel opts tOffs tsIdx uuid setupFails events tg).tempGroupsAfter := by
  by_cases hs : setupFails = true
  · constructor
    · simp [getMessagesModel, hne, hs]
    · simp [getMessagesModel, hne, hs, List.mem_filter]
  · obtain ⟨i1, i2, i3, i4⟩ := cleanInv_runFetch
      ⟨opts.partition, maxLimitOf opts.limit, totalAvailableOf (buildSeekMap opts tOffs tsIdx)⟩
      events
    simp only [getMessagesModel] at hdone ⊢
    rw [if_neg hne] at hdone ⊢
    rw [if_neg hs] at hdone ⊢
    simp only at hdone ⊢
    have hres := i4.symm.trans hdone
    have hcu := i1.symm.trans hres
    constructor
    · rw [i2, if_pos hcu]
    · have htr : (runFetch ⟨opts.partition, maxLimitOf opts.limit,
          totalAvailableOf (buildSeekMap opts tOffs tsIdx)⟩ events).tracked = false := by
        rw [i3, hcu]
        rfl
      rw [htr]
      simp [List.mem_filter]

/-- Witness for C1: a one-partition topic with three available records,
settled by the idle timeout. -/
theorem getMessages_cleanup_exactly_once_witness :
    (getMessagesModel ⟨none, none, none, some 100⟩ [⟨0, 0, 3⟩] [] ("u") false
        [.idleTimeout] [("other")]).cleanupRuns = 1 ∧
      mkEphemeralGroupId ("u") ∉
        (getMessagesModel ⟨none, none, none, some 100⟩ [⟨0, 0, 3⟩] [] ("u") false
          [.idleTimeout] [("other")]).tempGroupsAfter :=
  getMessages_cleanup_exactly_once _ _ _ _ _ _ _ (by decide) (by decide)

/-- Counterexample to claim C2 as stated: with limit 0 the cap is 0 and
five records are available; the overall timeout resolves the call with a
returned count equal to the cap and more records available, yet the result
has hasMore = false and carries no resumption token. -/
theorem fetch_cap_hasMore_counterexample :
    maxLimitOf (some 0) = 0 ∧
    totalAvailableOf (buildSeekMap ⟨none, none, none, some 0⟩ [⟨0, 0, 5⟩] []) = 5 ∧
    (getMessagesModel ⟨none, none, none, some 0⟩ [⟨0, 0, 5⟩] [] ("u") false
        [.overallTimeout] []).outcome = some (.ok ⟨[], false, none, none⟩) := by
  refine ⟨by decide, by decide, by decide⟩

/-- Claim C2 (amended): for every successful fetch the returned count is at
most the effective cap min(limit, 500) and at most the pre-computed
available estimate; when the cap is positive, the count equals the cap and
more records were available, the result has hasMore = true with a
resumption token; when the count equals the available estimate below the
cap, the result has hasMore = false. -/
theorem fetch_cap_and_hasMore
    (opts : MessageOptions) (tOffs : List PartitionOffsets) (tsIdx : List TimestampOffset)
    (uuid : String) (setupFails : Bool) (events : List FetchEvent) (tg : List String)
    (r : FetchResult)
    (hres : (getMessagesModel opts tOffs tsIdx uuid setupFails events tg).outcome =
      some (.ok r)) :
    r.messages.length ≤ maxLimitOf opts.limit ∧
    (r.messages.length : Int) ≤ totalAvailableOf (buildSeekMap opts tOffs tsIdx) ∧
    (r.messages.length = maxLimitOf opts.limit → 1 ≤ maxLimitOf opts.limit →
        (maxLimitOf opts.limit : Int) < totalAvailableOf (buildSeekMap opts tOffs tsIdx) →
        r.hasMore = true ∧ r.nextOffset.isSome = true) ∧
    ((r.messages.length : Int) = totalAvailableOf (buildSeekMap opts tOffs tsIdx) →
        totalAvailableOf (buildSeekMap opts tOffs tsIdx) < (maxLimitOf opts.limit : Int) →
        r.hasMore = false) := by
  by_cases hz : totalAvailableOf (buildSeekMap opts tOffs tsIdx) = 0
  · have hr0 : r = ⟨[], false, none, none⟩ := by
      simp [getMessagesModel, hz] at hres
      exact hres.symm
    subst hr0
    refine ⟨Nat.zero_le _, by simp [hz], ?_, ?_⟩
    · intro hc hm _
      exfalso
      simp at hc
      omega
    · intro _ _
      rfl
  · by_cases hs : setupFails = true
    · exfalso
      simp [getMessagesModel, hz, hs] at hres
    · have hA : 1 ≤ totalAvailableOf (buildSeekMap opts tOffs tsIdx) := by
        have := totalAvailableOf_nonneg (buildSeekMap opts tOffs tsIdx)
        omega
      obtain ⟨j1, j2, j3, j4, j5, j6, j7⟩ := loopInv_runFetch
        ⟨opts.partition, maxLimitOf opts.limit, totalAvailableOf (buildSeekMap opts tOffs tsIdx)⟩
        events hA
      simp only [getMessagesModel] at hres
      rw [if_neg hz] at hres
      rw [if_neg hs] at hres
      simp only at hres
      obtain ⟨k1, k2, k3⟩ := j7 r hres
      have hlen : r.messages.length = (runFetch
          ⟨opts.partition, maxLimitOf opts.limit,
            totalAvailableOf (buildSeekMap opts tOffs tsIdx)⟩ events).messageCount := by
        rw [k1, ← j1]
      have hle1 : (FetchCfg.totalExpected ⟨opts.partition, maxLimitOf opts.limit,
          totalAvailableOf (buildSeekMap opts tOffs tsIdx)⟩) ≤
          totalAvailableOf (buildSeekMap opts tOffs tsIdx) := min_le_left _ _
      refine ⟨?_, ?_, ?_, ?_⟩
      · rw [hlen]; exact j5
      · rw [hlen]; omega
      · intro ha hb hc
        obtain ⟨o1, o2, _⟩ := k2 ha hb hc
        exact ⟨o1, o2⟩
      · exact k3

/-- Witness for C2 (amended): limit 5 on ten available records, fed six
records — five are returned, hasMore = true, token = offset 5. -/
theorem fetch_cap_and_hasMore_witness :
    (⟨(List.range 5).map (fun i => ⟨0, i, 9, none, none, []⟩), true, some 5, some 0⟩ :
        FetchResult).messages.length ≤ maxLimitOf (some 5) ∧
    ((⟨(List.range 5).map (fun i => ⟨0, i, 9, none, none, []⟩), true, some 5, some 0⟩ :
        FetchResult).messages.length : Int) ≤
      totalAvailableOf (buildSeekMap ⟨none, none, none, some 5⟩ [⟨0, 0, 10⟩] []) ∧
    ((⟨(List.range 5).map (fun i => ⟨0, i, 9, none, none, []⟩), true, some 5, some 0⟩ :
        FetchResult).messages.length = maxLimitOf (some 5) → 1 ≤ maxLimitOf (some 5) →
        (maxLimitOf (some 5) : Int) <
          totalAvailableOf (buildSeekMap ⟨none, none, none, some 5⟩ [⟨0, 0, 10⟩] []) →
        (⟨(List.range 5).map (fun i => ⟨0, i, 9, none, none, []⟩), true, some 5, some 0⟩ :
          FetchResult).hasMore = true ∧
        (⟨(List.range 5).map (fun i => ⟨0, i, 9, none, none, []⟩), true, some 5, some 0⟩ :
          FetchResult).nextOffset.isSome = true) ∧
    (((⟨(List.range 5).map (fun i => ⟨0, i, 9, none, none, []⟩), true, some 5, some 0⟩ :
        FetchResult).messages.length : Int) =
        totalAvailableOf (buildSeekMap ⟨none, none, none, some 5⟩ [⟨0, 0, 10⟩] []) →
        totalAvailableOf (buildSeekMap ⟨none, none, none, some 5⟩ [⟨0, 0, 10⟩] []) <
          (maxLimitOf (some 5) : Int) →
        (⟨(List.range 5).map (fun i => ⟨0, i, 9, none, none, []⟩), true, some 5, some 0⟩ :
          FetchResult).hasMore = false) :=
  fetch_cap_and_hasMore ⟨none, none, none, some 5⟩ [⟨0, 0, 10⟩] [] ("u") false
    ((List.range 6).map (fun i => FetchEvent.message ⟨0, i, 9, none, none, []⟩)) [] _
    (by decide)

/-- Counterexample to claim C3 as stated: with limit 0 the cap-clamped
demand sum is 0, yet the engine creates, connects and subscribes a
consumer and registers an ephemeral group — the short-circuit checks the
sum before clamping. -/
theorem fetch_short_circuit_counterexample :
    min (totalAvailableOf (buildSeekMap ⟨none, none, none, some 0⟩ [⟨0, 0, 5⟩] []))
        ((maxLimitOf (some 0) : Int)) = 0 ∧
    (getMessagesModel ⟨none, none, none, some 0⟩ [⟨0, 0, 5⟩] [] ("u") false
        [.overallTimeout] []).consumersCreated = 1 ∧
    (getMessagesModel ⟨none, none, none, some 0⟩ [⟨0, 0, 5⟩] [] ("u") false
        [.overallTimeout] []).subscribeCalls = 1 ∧
    (getMessagesModel ⟨none, none, none, some 0⟩ [⟨0, 0, 5⟩] [] ("u") false
        [.overallTimeout] []).connectCalls = 1 := by
  decide

/-- Claim C3 (amended): when the unclamped per-partition demand sum is
zero, getMessages returns an empty result with hasMore = false and a null
token immediately, creating, connecting or subscribing no consumer and
registering no ephemeral group. -/
theorem fetch_empty_demand_short_circuit
    (opts : MessageOptions) (tOffs : List PartitionOffsets) (tsIdx : List TimestampOffset)
    (uuid : String) (setupFails : Bool) (events : List FetchEvent) (tg : List String)
    (hz : totalAvailableOf (buildSeekMap opts tOffs tsIdx) = 0) :
    getMessagesModel opts tOffs tsIdx uuid setupFails events tg =
      ⟨some (.ok ⟨[], false, none, none⟩), 0, 0, 0, tg, 0⟩ := by
  simp [getMessagesModel, hz]

/-- Witness for C3 (amended): a fetch on an empty topic. -/
theorem fetch_empty_demand_short_circuit_witness :
    getMessagesModel ⟨none, none, none, none⟩ [⟨0, 4, 4⟩] [] ("u") false
        [.idleTimeout] [("other")] =
      ⟨some (.ok ⟨[], false, none, none⟩), 0, 0, 0, [("other")], 0⟩ :=
  fetch_empty_demand_short_circuit _ _ _ _ _ _ _ (by decide)

/-! ## Claim C4: the orphan-group reaper -/

/-- Claim C4 (code bug): the reaper's filter keeps the stale
kafka-explorer naming while the fetch engine names its ephemeral groups
topiq-explorer-consumer-..., so a group orphaned by a crash never matches
the filter and survives every reconnect. -/
theorem reaper_never_matches_fetch_groups :
    mkEphemeralGroupId ("4f9a7c2d") = "topiq-explorer-consumer-4f9a7c2d" ∧
    strStartsWith (mkEphemeralGroupId ("4f9a7c2d")) reaperPat = false ∧
    reaperSelects [mkEphemeralGroupId ("4f9a7c2d")] = [] := by
  decide

/-! ## Claim C5: TLS error mapping -/

/-- Counterexample to claim C5 as stated: connect does not re-map TLS
failures — it propagates the raw client-library error even though the
mapper would have produced a distinct friendly message for it. -/
theorem connect_raw_error_counterexample :
    connectFull ⟨[], [], 0⟩ ("c1")
        (.error ("unable to verify: DEPTH_ZERO_SELF_SIGNED_CERT")) (.ok ()) =
      .error ("unable to verify: DEPTH_ZERO_SELF_SIGNED_CERT") ∧
    mapTlsError ("unable to verify: DEPTH_ZERO_SELF_SIGNED_CERT") ≠
      "unable to verify: DEPTH_ZERO_SELF_SIGNED_CERT" := by
  constructor
  · rfl
  · decide

/-- Claim C5 (amended): test-connect re-maps each TLS sub-cause —
self-signed certificate, expired certificate, hostname mismatch, bad
passphrase, malformed PEM — to a distinct operator-facing message instead
of the raw client-library error; connect, by contrast, surfaces the raw
error unmapped. -/
theorem testConnection_maps_tls_subcauses :
    testConnectionModel (.error ("DEPTH_ZERO_SELF_SIGNED_CERT")) =
      ⟨false, some ("The server is using a self-signed certificate. Enable \"Skip certificate verification\" to connect.")⟩ ∧
    testConnectionModel (.error ("CERT_HAS_EXPIRED")) =
      ⟨false, some ("The server certificate has expired. Contact the cluster administrator.")⟩ ∧
    testConnectionModel (.error ("ERR_TLS_CERT_ALTNAME_INVALID")) =
      ⟨false, some ("The server hostname does not match the certificate. Check the broker address or provide the correct certificate.")⟩ ∧
    testConnectionModel (.error ("ERR_OSSL_EVP_BAD_DECRYPT")) =
      ⟨false, some ("Could not decrypt the private key. Check the passphrase.")⟩ ∧
    testConnectionModel (.error ("ERR_OSSL_PEM_BAD_BASE64_DECODE")) =
      ⟨false, some ("The certificate or key file is malformed. Ensure it is a valid PEM file.")⟩ ∧
    (tlsErrorTable.map (fun p => p.2)).Nodup ∧
    (∀ p ∈ tlsErrorTable, p.2 ≠ p.1) := by
  refine ⟨by decide, by decide, by decide, by decide, by decide, by decide, by decide⟩

/-! ## Claim C6: the offset reset engine -/

/-- Folding map-set over rows with pairwise-distinct keys appends them in
order. -/
theorem foldl_setPO_append (t : List PartitionOffsets) :
    ∀ acc : List PartitionOffsets,
      (∀ e ∈ t, ∀ x ∈ acc, x.partition ≠ e.partition) →
      (t.map (fun p => p.partition)).Nodup →
      t.foldl setPO acc = acc ++ t := by
  induction t with
  | nil =>
      intro acc _ _
      simp
  | cons e t ih =>
      intro acc hdisj hnd
      rw [List.map_cons, List.nodup_cons] at hnd
      have hany : acc.any (fun x => x.partition == e.partition) = false := by
        rw [List.any_eq_false]
        intro x hx
        simpa using hdisj e (by simp) x hx
      have hstep : setPO acc e = acc ++ [e] := by
        unfold setPO
        rw [hany]
        simp
      rw [List.foldl_cons, hstep, ih (acc ++ [e]) ?_ hnd.2]
      · simp
      · intro f hf x hx
        rcases List.mem_append.mp hx with hxa | hxe
        · exact hdisj f (by simp [hf]) x hxa
        · have hxeq : x = e := by simpa using hxe
          subst hxeq
          intro hcontra
          exact hnd.1 (by rw [hcontra]; exact List.mem_map_of_mem _ hf)

/-- With distinct partition keys the watermark lookup map is the row list
itself. -/
theorem buildOffsetMap_eq_self (l : List PartitionOffsets)
    (hnd : (l.map (fun p => p.partition)).Nodup) : buildOffsetMap l = l := by
  unfold buildOffsetMap
  simpa using foldl_setPO_append l [] (by simp) hnd

/-- Claim C6: resetOffsets resolves each target partition per the anchor —
earliest to the low watermark, latest to the high watermark, timestamp to
the index lookup falling back to 0, explicit offset to the literal value
on every selected partition — and commits the resolved offsets in a
single administrative call; a missing timestamp or offset value fails
validation and commits nothing. -/
theorem resetOffsets_resolution (gid topic : String) (tOffs : List PartitionOffsets)
    (tsIdx : List TimestampOffset) (ropts : ResetOffsetOptions)
    (hnd : (tOffs.map (fun p => p.partition)).Nodup) :
    (ropts.type = .timestamp → jsTruthyNum ropts.timestamp = false →
        (resetOffsetsModel gid topic tOffs tsIdx ropts).1 = .error ("Timestamp required") ∧
        commitsOf (resetOffsetsModel gid topic tOffs tsIdx ropts).2 = []) ∧
    (ropts.type = .offsetAnchor → ropts.offset = none →
        (resetOffsetsModel gid topic tOffs tsIdx ropts).1 = .error ("Offset required") ∧
        commitsOf (resetOffsetsModel gid topic tOffs tsIdx ropts).2 = []) ∧
    ((resetOffsetsModel gid topic tOffs tsIdx ropts).1 = .ok () →
        commitsOf (resetOffsetsModel gid topic tOffs tsIdx ropts).2 =
          [AdminCall.setOffsets gid topic
            ((ropts.partitions.getD (tOffs.map (fun p => p.partition))).map
              (fun p => (p, specResolve ropts tOffs tsIdx p)))]) := by
  obtain ⟨ty, ts, off, parts⟩ := ropts
  cases ty with
  | earliest =>
      refine ⟨by intro h; exact absurd h (by simp), by intro h; exact absurd h (by simp), ?_⟩
      intro _
      simp [resetOffsetsModel, commitsOf, specResolve, buildOffsetMap_eq_self tOffs hnd]
  | latest =>
      refine ⟨by intro h; exact absurd h (by simp), by intro h; exact absurd h (by simp), ?_⟩
      intro _
      simp [resetOffsetsModel, commitsOf, specResolve, buildOffsetMap_eq_self tOffs hnd]
  | timestamp =>
      by_cases htr : jsTruthyNum ts = false
      · refine ⟨?_, by intro h; exact absurd h (by simp), ?_⟩
        · intro _ _
          constructor
          · simp [resetOffsetsModel, htr]
          · simp [resetOffsetsModel, htr, commitsOf]
        · intro hok
          exfalso
          simp [resetOffsetsModel, htr] at hok
      · refine ⟨?_, by intro h; exact absurd h (by simp), ?_⟩
        · intro _ hfalse
          exact absurd hfalse htr
        · intro _
          simp [resetOffsetsModel, htr, commitsOf, specResolve]
  | offsetAnchor =>
      cases off with
      | none =>
          refine ⟨by intro h; exact absurd h (by simp), ?_, ?_⟩
          · intro _ _
            constructor
            · simp [resetOffsetsModel]
            · simp [resetOffsetsModel, commitsOf]
          · intro hok
            exfalso
            simp [resetOffsetsModel] at hok
      | some o =>
          refine ⟨by intro h; exact absurd h (by simp), ?_, ?_⟩
          · intro _ habs
            exact absurd habs (by simp)
          · intro _
            simp [resetOffsetsModel, commitsOf, specResolve]

/-- Witness for C6: a latest-anchor reset over two partitions. -/
theorem resetOffsets_resolution_witness :
    ((⟨ResetType.timestamp, none, none, none⟩ : ResetOffsetOptions).type = .timestamp →
        jsTruthyNum (⟨ResetType.timestamp, none, none, none⟩ : ResetOffsetOptions).timestamp = false →
        (resetOffsetsModel ("g") ("t") [⟨0, 2, 9⟩, ⟨1, 0, 7⟩] [⟨0, 4⟩]
            ⟨ResetType.timestamp, none, none, none⟩).1 = .error ("Timestamp required") ∧
        commitsOf (resetOffsetsModel ("g") ("t") [⟨0, 2, 9⟩, ⟨1, 0, 7⟩] [⟨0, 4⟩]
            ⟨ResetType.timestamp, none, none, none⟩).2 = []) ∧
    ((⟨ResetType.timestamp, none, none, none⟩ : ResetOffsetOptions).type = .offsetAnchor →
        (⟨ResetType.timestamp, none, none, none⟩ : ResetOffsetOptions).offset = none →
        (resetOffsetsModel ("g") ("t") [⟨0, 2, 9⟩, ⟨1, 0, 7⟩] [⟨0, 4⟩]
            ⟨ResetType.timestamp, none, none, none⟩).1 = .error ("Offset required") ∧
        commitsOf (resetOffsetsModel ("g") ("t") [⟨0, 2, 9⟩, ⟨1, 0, 7⟩] [⟨0, 4⟩]
            ⟨ResetType.timestamp, none, none, none⟩).2 = []) ∧
    ((resetOffsetsModel ("g") ("t") [⟨0, 2, 9⟩, ⟨1, 0, 7⟩] [⟨0, 4⟩]
        ⟨ResetType.timestamp, none, none, none⟩).1 = .ok () →
        commitsOf (resetOffsetsModel ("g") ("t") [⟨0, 2, 9⟩, ⟨1, 0, 7⟩] [⟨0, 4⟩]
            ⟨ResetType.timestamp, none, none, none⟩).2 =
          [AdminCall.setOffsets ("g") ("t")
            (((⟨ResetType.timestamp, none, none, none⟩ : ResetOffsetOptions).partitions.getD
                ([⟨0, 2, 9⟩, ⟨1, 0, 7⟩].map (fun p => PartitionOffsets.partition p))).map
              (fun p => (p, specResolve ⟨ResetType.timestamp, none, none, none⟩
                [⟨0, 2, 9⟩, ⟨1, 0, 7⟩] [⟨0, 4⟩] p)))]) :=
  resetOffsets_resolution ("g") ("t") [⟨0, 2, 9⟩, ⟨1, 0, 7⟩] [⟨0, 4⟩]
    ⟨ResetType.timestamp, none, none, none⟩ (by decide)

/-! ## Claim C7: connect idempotence -/

/-- A keyed list with distinct keys holding the key has exactly one
matching entry. -/
theorem length_filter_key_eq_one (l : List (String × KafkaInstanceM)) (id : String)
    (hnd : (l.map (fun e => e.1)).Nodup) (hmem : l.any (fun e => e.1 == id) = true) :
    (l.filter (fun e => e.1 == id)).length = 1 := by
  induction l with
  | nil => simp at hmem
  | cons x t ih =>
      rw [List.map_cons, List.nodup_cons] at hnd
      by_cases hx : (x.1 == id) = true
      · have hkey : x.1 = id := by simpa using hx
        have hnone : t.filter (fun e => e.1 == id) = [] := by
          rw [List.filter_eq_nil_iff]
          intro y hy
          simp only [beq_iff_eq]
          intro hcontra
          exact hnd.1 (by rw [hkey, ← hcontra]; exact List.mem_map_of_mem _ hy)
        simp [List.filter_cons, hx, hnone]
      · have hx' : (x.1 == id) = false := by simpa using hx
        have hmem' : t.any (fun e => e.1 == id) = true := by
          rcases List.any_eq_true.mp hmem with ⟨y, hy, hyp⟩
          rcases List.mem_cons.mp hy with rfl | hyt
          · exact absurd hyp (by simp [hx'])
          · exact List.any_eq_true.mpr ⟨y, hyt, hyp⟩
        simp only [List.filter_cons, hx', if_false]
        exact ih hnd.2 hmem'

/-- Claim C7: connect is idempotent — a second connect on an already-open
connection id succeeds immediately with the registry unchanged (so no new
handles), leaving exactly one session registered for the id. -/
theorem connect_idempotent (s : ServiceState) (id : String)
    (a p a2 p2 : Except String Unit) (s1 : ServiceState)
    (hnd : (s.instances.map (fun e => e.1)).Nodup)
    (h1 : connectFull s id a p = .ok s1) :
    connectFull s1 id a2 p2 = .ok s1 ∧
      (s1.instances.filter (fun e => e.1 == id)).length = 1 := by
  by_cases hany : s.instances.any (fun e => e.1 == id) = true
  · unfold connectFull at h1
    rw [if_pos hany] at h1
    have hs1 : s = s1 := by
      injection h1
    subst hs1
    constructor
    · unfold connectFull
      rw [if_pos hany]
    · exact length_filter_key_eq_one _ _ hnd hany
  · unfold connectFull at h1
    rw [if_neg hany] at h1
    cases a with
    | error e => exact absurd h1 (by simp)
    | ok u =>
        cases u
        cases p with
        | error e => exact absurd h1 (by simp)
        | ok u2 =>
            cases u2
            have hs1 : { s with
                instances := s.instances ++ [(id, ⟨s.nextHandle, s.nextHandle + 1, []⟩)]
                nextHandle := s.nextHandle + 2 } = s1 := by
              injection h1
            subst hs1
            have hnone : s.instances.filter (fun e => e.1 == id) = [] := by
              rw [List.filter_eq_nil_iff]
              intro y hy hcontra
              exact (by simpa using hany : ¬ s.instances.any (fun e => e.1 == id) = true)
                (List.any_eq_true.mpr ⟨y, hy, hcontra⟩)
            constructor
            · unfold connectFull
              rw [if_pos (by simp)]
            · simp [List.filter_append, hnone]

/-- Witness for C7: connecting twice from an empty registry. -/
theorem connect_idempotent_witness :
    connectFull ⟨[("c1", ⟨0, 1, []⟩)], [], 2⟩ ("c1") (.ok ()) (.ok ()) =
        .ok ⟨[("c1", ⟨0, 1, []⟩)], [], 2⟩ ∧
      ((⟨[("c1", ⟨0, 1, []⟩)], [], 2⟩ : ServiceState).instances.filter
        (fun e => e.1 == ("c1"))).length = 1 :=
  connect_idempotent ⟨[], [], 0⟩ ("c1") (.ok ()) (.ok ()) (.ok ()) (.ok ())
    ⟨[("c1", ⟨0, 1, []⟩)], [], 2⟩ (by decide) rfl

/-! ## Claim C8: disconnect teardown -/

/-- Claim C8: disconnect is a no-op without a session; otherwise every
consumer handle is closed (failures collected, not aborting), the tracked
ephemeral groups are deleted before the producer and admin handles are
closed, the session is always removed, and nothing is re-thrown: the
final state and the attempted trace are independent of which teardown
steps fail, and failures are merely counted. -/
theorem disconnect_always_completes (fail : TeardownStep → Bool) (s : ServiceState)
    (id : String) :
    (s.instances.find? (fun e => e.1 == id) = none → disconnectS fail s id = ⟨s, [], 0⟩) ∧
    (∀ inst, s.instances.find? (fun e => e.1 == id) = some inst →
        (disconnectS fail s id).state.instances.find? (fun e => e.1 == id) = none ∧
        (disconnectS fail s id).state = (disconnectS (fun _ => false) s id).state ∧
        (disconnectS fail s id).trace = (disconnectS (fun _ => false) s id).trace ∧
        (disconnectS fail s id).trace =
          inst.2.consumers.map (fun c => TeardownStep.consumerDisconnect c.2) ++
            (if (((s.tempGroups.find? (fun g => g.1 == id)).map (fun g => g.2)).getD
                []).isEmpty then ([] : List TeardownStep)
              else [TeardownStep.deleteGroups
                (((s.tempGroups.find? (fun g => g.1 == id)).map (fun g => g.2)).getD [])]) ++
            [TeardownStep.producerDisconnect inst.2.producer,
              TeardownStep.adminDisconnect inst.2.admin] ∧
        (disconnectS fail s id).errors =
          ((inst.2.consumers.map (fun c => TeardownStep.consumerDisconnect c.2)).filter
              fail).length +
            (if fail (TeardownStep.producerDisconnect inst.2.producer) then 1 else 0) +
            (if fail (TeardownStep.adminDisconnect inst.2.admin) then 1 else 0)) := by
  constructor
  · intro h
    simp only [disconnectS, h]
  · intro inst h
    simp only [disconnectS, h]
    refine ⟨?_, trivial, trivial, trivial, trivial⟩
    rw [List.find?_eq_none]
    intro x hx
    have hx2 := (List.mem_filter.mp hx).2
    simpa using hx2

/-- Witness for C8: a full teardown under an oracle failing every step:
the session disappears and the trace is unaffected by the failures. -/
theorem disconnect_always_completes_witness :
    (disconnectS (fun _ => true) ⟨[("c1", ⟨0, 1, [("k", 2)]⟩)], [("c1", ["g1"])], 3⟩
        ("c1")).state.instances.find? (fun e => e.1 == ("c1")) = none ∧
    (disconnectS (fun _ => true) ⟨[("c1", ⟨0, 1, [("k", 2)]⟩)], [("c1", ["g1"])], 3⟩
        ("c1")).trace =
      (disconnectS (fun _ => false) ⟨[("c1", ⟨0, 1, [("k", 2)]⟩)], [("c1", ["g1"])], 3⟩
        ("c1")).trace := by
  have h := disconnect_always_completes (fun _ => true)
    ⟨[("c1", ⟨0, 1, [("k", 2)]⟩)], [("c1", ["g1"])], 3⟩ ("c1")
  exact ⟨(h.2 ("c1", ⟨0, 1, [("k", 2)]⟩) (by decide)).1,
    (h.2 ("c1", ⟨0, 1, [("k", 2)]⟩) (by decide)).2.2.1⟩

/-! ## Claim C9: offset arithmetic -/

/-- Claim C9: the fetch engine's offset arithmetic is exact over unbounded
integers: the per-partition demand high − start is computed exactly
whenever the difference itself fits in 53 bits, even when both offsets
exceed the 53-bit-safe range, and the resumption token produced at cap
truncation equals lastOffset + 1 on the truncating partition for offsets
of any magnitude. -/
theorem fetch_offset_arithmetic_exact
    (pn q : Nat) (high seekOffset v : Int) (s : LoopState)
    (hd : (high - seekOffset).natAbs ≤ 2 ^ 53)
    (hr : s.resolved = false) (hl : s.lastOffset = some v) (hp : s.lastPartition = some q) :
    availableOf ⟨pn, seekOffset, high⟩ = high - seekOffset ∧
    ∃ r, (finishFetch true s).outcome = some (.ok r) ∧
      r.nextOffset = some (v + 1) ∧ r.nextPartition = some q := by
  constructor
  · exact jsNumberOfInt_eq_self _ hd
  · refine ⟨mkResult true (runCleanup { s with resolved := true }), ?_, ?_, ?_⟩
    · unfold finishFetch
      rw [if_neg (by simp [hr])]
    · simp [mkResult, runCleanup_lastOffset, hl]
    · simp [mkResult, runCleanup_lastPartition, hp]

/-- Witness for C9: offsets around 2^60 and a last offset of 2^61, beyond
the 53-bit-safe range. -/
theorem fetch_offset_arithmetic_exact_witness :
    availableOf ⟨0, 1152921504606846976, 1152921504606846983⟩ =
      1152921504606846983 - 1152921504606846976 ∧
    ∃ r, (finishFetch true
        ⟨[], 0, some 2305843009213693952, some 3, false, false, 0, true, none⟩).outcome =
          some (.ok r) ∧
      r.nextOffset = some (2305843009213693952 + 1) ∧ r.nextPartition = some 3 :=
  fetch_offset_arithmetic_exact 0 3 1152921504606846983 1152921504606846976
    2305843009213693952 _ (by decide) rfl rfl rfl

/-! ## Claim C10: timestamp 0 treated as absent -/

/-- Claim C10: a timestamp value of 0 is treated as absent by both
engines: resetOffsets with the timestamp anchor and timestamp 0 fails
with Timestamp required committing nothing, and getMessages with
fromTimestamp 0 skips the timestamp-index lookup entirely, computing
start offsets from the explicit fromOffset or the low watermark. -/
theorem timestamp_zero_treated_as_absent
    (gid topic : String) (tOffs : List PartitionOffsets) (tsIdx tsIdx2 : List TimestampOffset)
    (opts : MessageOptions) (ropts : ResetOffsetOptions)
    (hrt : ropts.type = .timestamp) (hts : ropts.timestamp = some 0)
    (hot : opts.fromTimestamp = some 0) :
    (resetOffsetsModel gid topic tOffs tsIdx ropts).1 = .error ("Timestamp required") ∧
    commitsOf (resetOffsetsModel gid topic tOffs tsIdx ropts).2 = [] ∧
    buildSeekMap opts tOffs tsIdx = seekMapFromOffsets opts.partition opts.fromOffset tOffs ∧
    buildSeekMap opts tOffs tsIdx = buildSeekMap opts tOffs tsIdx2 := by
  have hjt : jsTruthyNum ropts.timestamp = false := by rw [hts]; rfl
  have hjo : jsTruthyNum opts.fromTimestamp = false := by rw [hot]; rfl
  refine ⟨?_, ?_, ?_, ?_⟩
  · simp [resetOffsetsModel, hrt, hjt]
  · simp [resetOffsetsModel, hrt, hjt, commitsOf]
  · simp [buildSeekMap, hjo]
  · simp [buildSeekMap, hjo]

/-- Witness for C10: timestamp 0 on a reset and a fetch over one
partition. -/
theorem timestamp_zero_treated_as_absent_witness :
    (resetOffsetsModel ("g") ("t") [⟨0, 2, 9⟩] [⟨0, 4⟩]
        ⟨ResetType.timestamp, some 0, none, none⟩).1 = .error ("Timestamp required") ∧
    commitsOf (resetOffsetsModel ("g") ("t") [⟨0, 2, 9⟩] [⟨0, 4⟩]
        ⟨ResetType.timestamp, some 0, none, none⟩).2 = [] ∧
    buildSeekMap ⟨none, some 5, some 0, none⟩ [⟨0, 2, 9⟩] [⟨0, 4⟩] =
      seekMapFromOffsets none (some 5) [⟨0, 2, 9⟩] ∧
    buildSeekMap ⟨none, some 5, some 0, none⟩ [⟨0, 2, 9⟩] [⟨0, 4⟩] =
      buildSeekMap ⟨none, some 5, some 0, none⟩ [⟨0, 2, 9⟩] [⟨0, 7⟩] :=
  timestamp_zero_treated_as_absent ("g") ("t") [⟨0, 2, 9⟩] [⟨0, 4⟩] [⟨0, 7⟩]
    ⟨none, some 5, some 0, none⟩ ⟨ResetType.timestamp, some 0, none, none⟩ rfl rfl rfl

end TopiqExplorer
